import Mathlib

/-!
Verification of the pass-string generation and entropy-scoring engine of the
csecht/general_utilities repository, against its natural-language specification.

The engine lives in two Python files:
* `passphrase.py` — class `PassModeler` with `get_words`, `make_pass`,
  `set_entropy` and `reset` (the main variant);
* `pygPassphrase.py` — class `Generator` with `get_words` and `make_pass`
  (the earlier, simpler variant).

Modelling conventions of the shallow embedding:
* Python strings are `List Char`; Python lists of strings are
  `List (List Char)`.  The Python `in` substring test is `hasSub` below.
* `random.choice(seq)` is modelled by an oracle supplying one natural number
  per draw; the drawn index is the oracle value reduced modulo the sequence
  length, and the draw fails (Python `IndexError`) exactly when the sequence
  is empty.  Distributional properties of the generator are not modelled,
  only which class of generator the source instantiates (`PyRng` below).
* Python exceptions (`IndexError` from `choice` on an empty sequence,
  `ValueError`/`ZeroDivisionError` from `log`/`1/len` on an empty pool,
  `ValueError` from `int()` on a non-numeric string) are modelled by
  `Option`/explicit error results.
* Python float arithmetic in `set_entropy` is idealized as exact real
  arithmetic.  Under that idealization `int(L * log(N) / log(2))` is
  `⌊L·log₂N⌋` (the values are nonnegative, so `int` truncation is `⌊·⌋`),
  which for natural `N` equals `Nat.log 2 (N ^ L)`; the definitions use the
  computable `Nat.log` form and the theorems prove it equal to the real
  floor-of-logarithm formula.
* `str.isalpha`/`str.isdigit` are modelled by their ASCII restrictions
  (`Char.isAlpha`/`Char.isDigit`); no claim below depends on non-ASCII
  classification.
* The Python `set()` iteration order is not specified; it is modelled by
  `List.dedup` (first occurrences kept).  Within one process the order is
  fixed, and every property proved below is insensitive to the choice.
-/

namespace Passgen

/-! ### Python string-module constants (ASCII) -/

def pyDigits : List Char := "0123456789".toList

def asciiLowercase : List Char := "abcdefghijklmnopqrstuvwxyz".toList

def asciiUppercase : List Char := "ABCDEFGHIJKLMNOPQRSTUVWXYZ".toList

def asciiLetters : List Char := asciiLowercase ++ asciiUppercase

/-- Python `string.punctuation`: the 32 printable ASCII characters (codes 33–126)
that are not alphanumeric. -/
def pyPunctuation : List Char :=
  (((List.range 127).drop 33).map Char.ofNat).filter (fun c => !c.isAlphanum)

/-- Constant from `passphrase.py` line 57: `SYMBOLS = "~!@#$%^&*_-+="`. -/
def SYMBOLS : List Char := "~!@#$%^&*_-+=".toList

/-- Constant from `pygPassphrase.py` line 25: `SYMBOLS = "~!@#$%^&*_-"`. -/
def PYG_SYMBOLS : List Char := "~!@#$%^&*_-".toList

/-! ### Python string helpers -/

/-- The whitespace characters stripped by Python `str.strip()`
(space, tab, newline, carriage return, vertical tab, form feed). -/
def pyIsSpace (c : Char) : Bool :=
  c = ' ' || c = '\t' || c = '\n' || c = '\r' || c = Char.ofNat 11 || c = Char.ofNat 12

/-- Python `str.strip()`. -/
def pyStrip (s : List Char) : List Char :=
  ((s.dropWhile pyIsSpace).reverse.dropWhile pyIsSpace).reverse

/-- Helper for `splitWs`; `cur` holds the current token reversed. -/
def splitWsAux : List Char → List Char → List (List Char)
  | cur, [] => if cur.isEmpty then [] else [cur.reverse]
  | cur, c :: cs =>
    if pyIsSpace c then
      if cur.isEmpty then splitWsAux [] cs else cur.reverse :: splitWsAux [] cs
    else splitWsAux (c :: cur) cs

/-- Python `str.split()` with no argument: whitespace-delimited tokens,
no empty tokens. -/
def splitWs (s : List Char) : List (List Char) := splitWsAux [] s

/-- Python `str.isalpha()`: nonempty and every character alphabetic. -/
def pyIsAlpha (w : List Char) : Bool := !w.isEmpty && w.all Char.isAlpha

/-- Python `str.isdigit()`: nonempty and every character a digit. -/
def pyAllDigits (s : List Char) : Bool := !s.isEmpty && s.all Char.isDigit

/-- Numeric value of a digit string. -/
def digitsVal (s : List Char) : Nat := s.foldl (fun a c => a * 10 + (c.toNat - 48)) 0

/-- Python substring test `frag in w` on strings. -/
def hasSub (frag : List Char) (w : List Char) : Bool :=
  match w with
  | [] => frag.isEmpty
  | _ :: rest => frag.isPrefixOf w || hasSub frag rest

/-- The count-entry coercion of `PassModeler.make_pass` (lines 350–364):
the entry is stripped; an empty or non-digit entry is rewritten to `"0"`,
and the (corrected) entry is then converted with `int()`. -/
def parseCount (entry : List Char) : Nat :=
  let s := pyStrip entry
  if pyAllDigits s then digitsVal s else 0

/-- Python `int(str)`: optional sign after stripping whitespace, then at
least one digit; `none` models the `ValueError` raised otherwise. -/
def pyIntParse (entry : List Char) : Option Int :=
  match pyStrip entry with
  | [] => none
  | c :: rest =>
    if c = '+' then (if pyAllDigits rest then some (digitsVal rest) else none)
    else if c = '-' then (if pyAllDigits rest then some (-(digitsVal rest : Int)) else none)
    else if pyAllDigits (c :: rest) then some (digitsVal (c :: rest)) else none

/-! ### Random sampling -/

/-- Model of `VERY_RANDOM.choice(pool)` / `secure_random.choice(pool)`: uniform draw
of one element, modelled by an oracle value `r` reduced modulo the pool
length; `none` models the `IndexError` raised on an empty sequence. -/
def pyChoice {α : Type} (pool : List α) (r : Nat) : Option α :=
  pool[r % pool.length]?

/-- Performs `cnt` successive draws (oracle positions `start`, `start+1`, …). -/
def drawFrom {α : Type} (pool : List α) (o : Nat → Nat) (start : Nat) :
    Nat → Option (List α)
  | 0 => some []
  | n + 1 => do
    let x ← pyChoice pool (o start)
    let xs ← drawFrom pool o (start + 1) n
    pure (x :: xs)

/-- Model of `"".join(RNG.choice(pool) for _ in range(cnt))` over a word pool:
the drawn units concatenated with no separator. -/
def sample (pool : List (List Char)) (cnt : Nat) (o : Nat → Nat) : Option (List Char) :=
  (drawFrom pool o 0 cnt).map List.flatten

/-- Model of `"".join(RNG.choice(pool) for _ in range(cnt))` over a character pool. -/
def sampleChars (pool : List Char) (cnt : Nat) (o : Nat → Nat) : Option (List Char) :=
  drawFrom pool o 0 cnt

/-! ### Which generator each variant instantiates -/

/-- The two classes of the Python `random` module used by the repository.
`random.Random` is the deterministic Mersenne Twister generator, documented
by the Python library as completely deterministic and unsuitable for
security purposes (reproducible from its seed/state); `random.SystemRandom`
draws from `os.urandom`, the OS cryptographically strong source. -/
inductive PyRng where
  | mersenneTwister : PyRng
  | systemRandom : PyRng
  deriving DecidableEq

/-- Declaration at `passphrase.py` line 62: `VERY_RANDOM = random.Random(random.random())` —
an instance of `random.Random` (Mersenne Twister) seeded from the default
generator.  The `random.SystemRandom()` alternative appears only in a
commented-out line. -/
def VERY_RANDOM : PyRng := PyRng.mersenneTwister

/-- Declaration at `pygPassphrase.py` line 365: `secure_random = random.SystemRandom()`. -/
def pyg_secure_random : PyRng := PyRng.systemRandom

/-- Whether a generator class is cryptographically strong, per the Python
library classification of the two classes. -/
def isCSPRNG : PyRng → Bool
  | PyRng.mersenneTwister => false
  | PyRng.systemRandom => true

/-! ### State of PassModeler (passphrase.py) -/

/-- The class-level pool data of `PassModeler`: `listdata` (word_list,
short_list) and `strdata` (symbols, digi, caps, all_char, some_char,
all_unused).  Character pools are kept as `List Char` throughout (the source
starts them as strings and turns them into lists of single-character strings
on first filtering; the contents are identical). -/
structure PoolState where
  word_list : List (List Char)
  short_list : List (List Char)
  symbols : List Char
  digi : List Char
  caps : List Char
  all_char : List Char
  some_char : List Char
  all_unused : List Char
  deriving DecidableEq, Repr

/-- The tk display variables consumed by the display collaborator: the five
`(text, length, entropy)` result triples plus the available-word count and
the currently-excluded string. -/
structure Display where
  available : Nat
  excluded : List Char
  phrase_raw : List Char
  phrase_plus : List Char
  phrase_short : List Char
  pc_any : List Char
  pc_some : List Char
  pp_raw_len : Nat
  pp_plus_len : Nat
  pp_short_len : Nat
  pc_any_len : Nat
  pc_some_len : Nat
  pp_raw_h : Nat
  pp_plus_h : Nat
  pp_short_h : Nat
  pc_any_h : Nat
  pc_some_h : Nat
  deriving DecidableEq, Repr

/-- Stub text of `PassViewer` shown before the first generation. -/
def stubresult : List Char := "Result can be copied and pasted.".toList

/-- Baseline `all_char` pool: `ascii_letters + digits + punctuation`. -/
def all_char_base : List Char := asciiLetters ++ pyDigits ++ pyPunctuation

/-- Baseline `some_char` pool: `ascii_letters + digits + SYMBOLS`. -/
def some_char_base : List Char := asciiLetters ++ pyDigits ++ SYMBOLS

/-- Model of `PassModeler.get_words` (lines 292–340): rebuild the word pools from the
raw text `src` of the active word source (set-deduplicated whitespace
tokens restricted to alphabetic units; short list = words of length < 7),
zero the passphrase result fields, clear the exclusion display, and publish
the available word count.  The phrase texts are cleared unless the raw
phrase is (a substring of) the startup stub. -/
def get_words (src : List Char) (st : PoolState) (d : Display) : PoolState × Display :=
  let longlist := ((splitWs src).dedup).filter pyIsAlpha
  let shortlist := longlist.filter (fun w => w.length < 7)
  let keepStub := hasSub d.phrase_raw stubresult
  let d1 : Display :=
    { d with
      pp_raw_h := 0, pp_plus_h := 0, pp_short_h := 0,
      pp_raw_len := 0, pp_plus_len := 0, pp_short_len := 0,
      excluded := [],
      phrase_raw := if keepStub then d.phrase_raw else [],
      phrase_plus := if keepStub then d.phrase_plus else [],
      phrase_short := if keepStub then d.phrase_short else [],
      available := longlist.length }
  ({ st with word_list := longlist, short_list := shortlist, all_unused := [] }, d1)

/-- Model of `PassModeler.reset` (lines 522–545): clear the passcode results and the
exclusion display, restore the character pools to their baselines, and call
`get_words` to restore the word pools. -/
def reset (src : List Char) (st : PoolState) (d : Display) : PoolState × Display :=
  let d1 : Display :=
    { d with
      pc_any := [], pc_any_len := 0, pc_any_h := 0,
      pc_some := [], pc_some_len := 0, pc_some_h := 0,
      excluded := [] }
  let st1 : PoolState :=
    { st with
      all_unused := [],
      symbols := SYMBOLS, digi := pyDigits, caps := asciiUppercase,
      all_char := all_char_base, some_char := some_char_base }
  get_words src st1 d1

/-- The fully unfiltered pool state derived from word source `src`. -/
def init_pools (src : List Char) : PoolState :=
  { word_list := ((splitWs src).dedup).filter pyIsAlpha,
    short_list := (((splitWs src).dedup).filter pyIsAlpha).filter (fun w => w.length < 7),
    symbols := SYMBOLS, digi := pyDigits, caps := asciiUppercase,
    all_char := all_char_base, some_char := some_char_base,
    all_unused := [] }

/-- The exclusion step of `PassModeler.make_pass` (lines 366–399), given the
already-stripped exclusion entry `unused`: reset everything if `unused` is
empty or contains a space; then, if `unused` is nonempty, remove from every
pool each unit containing `unused` as a substring, publish the new
available-word count, and append `unused` to the excluded-characters
display unless it is already recorded or contains a space. -/
def applyExclusion (src : List Char) (st : PoolState) (d : Display)
    (unused : List Char) : PoolState × Display :=
  let sd1 := if unused.contains ' ' || unused.isEmpty then reset src st d else (st, d)
  let st1 := sd1.1
  let d1 := sd1.2
  if 0 < unused.length then
    let st2 : PoolState :=
      { word_list := st1.word_list.filter (fun w => !hasSub unused w),
        short_list := st1.short_list.filter (fun w => !hasSub unused w),
        symbols := st1.symbols.filter (fun c => !hasSub unused [c]),
        digi := st1.digi.filter (fun c => !hasSub unused [c]),
        caps := st1.caps.filter (fun c => !hasSub unused [c]),
        all_char := st1.all_char.filter (fun c => !hasSub unused [c]),
        some_char := st1.some_char.filter (fun c => !hasSub unused [c]),
        all_unused := st1.all_unused }
    let d2 : Display := { d1 with available := st2.word_list.length }
    if !hasSub unused st1.all_unused && !unused.contains ' ' then
      let acc := st1.all_unused ++ ' ' :: unused
      ({ st2 with all_unused := acc }, { d2 with excluded := acc })
    else (st2, d2)
  else (st1, d1)

/-! ### Entropy -/

/-- Value `int(L * log(N) / log(2))` of `set_entropy` under exact real arithmetic:
the value is `⌊L·log₂N⌋` (nonnegative, so `int` truncation is the floor),
realized computably as `Nat.log 2 (N ^ L)`; theorem `entropyH_eq_floor`
below proves the two forms equal. -/
def entropyH (L N : Nat) : Nat := Nat.log 2 (N ^ L)

/-- Value `h_add3 = int(h_symbol + h_cap + h_digit)` of `set_entropy` (lines
452–455), where `h_x = -log2(1/Nx) = log₂Nx`, under exact real arithmetic:
`⌊log₂Ns + log₂Nd + log₂Nu⌋ = Nat.log 2 (Ns·Nd·Nu)`; theorem
`hAdd3_eq_floor` below proves the two forms equal. -/
def hAdd3 (ns nd nu : Nat) : Nat := Nat.log 2 (ns * nd * nu)

/-- Model of `PassModeler.set_entropy` (lines 440–472).  Each `log`/`1/len` on an
empty pool raises (`ValueError`/`ZeroDivisionError`), modelled by the
`false` flag; the display fields already set before the failing computation
keep their new values, matching the sequential `.set()` calls of the source. -/
def set_entropy (st : PoolState) (d : Display) (nw nc : Nat) : Display × Bool :=
  if st.symbols.isEmpty || st.digi.isEmpty || st.caps.isEmpty then (d, false) else
  let h_add3 := hAdd3 st.symbols.length st.digi.length st.caps.length
  if st.word_list.isEmpty then (d, false) else
  let d1 : Display := { d with pp_raw_h := entropyH nw st.word_list.length }
  let d2 : Display := { d1 with pp_plus_h := d1.pp_raw_h + h_add3 }
  if st.short_list.isEmpty then (d2, false) else
  let d3 : Display := { d2 with pp_short_h := entropyH nw st.short_list.length + h_add3 }
  if st.all_char.isEmpty then (d3, false) else
  let d4 : Display := { d3 with pc_any_h := entropyH nc st.all_char.length }
  if st.some_char.isEmpty then (d4, false) else
  ({ d4 with pc_some_h := entropyH nc st.some_char.length }, true)

/-! ### Pass-string generation (make_pass) -/

/-- The seven strings drawn by `make_pass` (lines 401–418), in source
order. -/
structure Drawn where
  passphrase : List Char
  shortphrase : List Char
  passcode1 : List Char
  passcode2 : List Char
  addsymbol : List Char
  addnum : List Char
  addcaps : List Char
  deriving DecidableEq, Repr

/-- The sampling block of `make_pass` (lines 401–418): `numwords` draws from
each word pool, `numchars` draws from each character pool, and one draw from
each of symbols, digits and caps.  `none` models the `IndexError` that
aborts `make_pass` when a drawn-from pool is empty. -/
def buildStrings (st : PoolState) (nw nc : Nat) (o : Nat → Nat → Nat) : Option Drawn := do
  let pp ← sample st.word_list nw (o 0)
  let sp ← sample st.short_list nw (o 1)
  let p1 ← sampleChars st.all_char nc (o 2)
  let p2 ← sampleChars st.some_char nc (o 3)
  let asym ← sampleChars st.symbols 1 (o 4)
  let anum ← sampleChars st.digi 1 (o 5)
  let acap ← sampleChars st.caps 1 (o 6)
  pure { passphrase := pp, shortphrase := sp, passcode1 := p1, passcode2 := p2,
         addsymbol := asym, addnum := anum, addcaps := acap }

/-- Result of one `make_pass` call: on success the post-exclusion pool state
and the fully updated display; on error (a Python exception propagating out
of `make_pass`) the post-exclusion pool state and the display as mutated up
to the failure point. -/
inductive MPResult where
  | ok : PoolState → Display → MPResult
  | err : PoolState → Display → MPResult
  deriving DecidableEq, Repr

def MPResult.isErr : MPResult → Bool
  | MPResult.ok _ _ => false
  | MPResult.err _ _ => true

def MPResult.stateOf : MPResult → PoolState
  | MPResult.ok s _ => s
  | MPResult.err s _ => s

def MPResult.dispOf : MPResult → Display
  | MPResult.ok _ d => d
  | MPResult.err _ d => d

/-- Model of `PassModeler.make_pass` (lines 342–438): coerce the two count entries,
apply the exclusion step to the stripped exclusion entry, draw the seven
strings, build and publish the five result texts with their lengths, and
finally compute the entropy values via `set_entropy`.  `err` carries the
state and display at the point the propagating exception left them. -/
def make_pass (src : List Char) (st : PoolState) (d : Display)
    (nwE ncE exE : List Char) (o : Nat → Nat → Nat) : MPResult :=
  let nw := parseCount nwE
  let nc := parseCount ncE
  let unused := pyStrip exE
  let sd := applyExclusion src st d unused
  match buildStrings sd.1 nw nc o with
  | none => MPResult.err sd.1 sd.2
  | some dr =>
    let phraseplus := dr.passphrase ++ dr.addsymbol ++ dr.addnum ++ dr.addcaps
    let phraseshort := dr.shortphrase ++ dr.addsymbol ++ dr.addnum ++ dr.addcaps
    let d2 : Display :=
      { sd.2 with
        phrase_raw := dr.passphrase, pp_raw_len := dr.passphrase.length,
        phrase_plus := phraseplus, pp_plus_len := phraseplus.length,
        phrase_short := phraseshort, pp_short_len := phraseshort.length,
        pc_any := dr.passcode1, pc_any_len := dr.passcode1.length,
        pc_some := dr.passcode2, pc_some_len := dr.passcode2.length }
    let eres := set_entropy sd.1 d2 nw nc
    if eres.2 then MPResult.ok sd.1 eres.1 else MPResult.err sd.1 eres.1

/-- True when some pool of the state is empty. -/
def anyPoolEmpty (st : PoolState) : Bool :=
  st.word_list.isEmpty || st.short_list.isEmpty || st.symbols.isEmpty ||
  st.digi.isEmpty || st.caps.isEmpty || st.all_char.isEmpty || st.some_char.isEmpty

/-! ### The pygPassphrase.py variant -/

/-- The two-character apostrophe-s pattern used by `re.search` at line 370. -/
def apoS : List Char := [Char.ofNat 39, 's']

/-- Model of `pygPassphrase.py` lines 369–370: words of the system dictionary not
containing the apostrophe-s pattern (no deduplication, no alphabetic restriction). -/
def pyg_uniq_words (system_list : List (List Char)) : List (List Char) :=
  system_list.filter (fun w => !hasSub apoS w)

/-- Model of `pygPassphrase.py` line 371: the 3-to-8-letter subset of
`pyg_uniq_words`. -/
def pyg_trim_words (system_list : List (List Char)) : List (List Char) :=
  (pyg_uniq_words system_list).filter (fun w => 3 ≤ w.length && w.length ≤ 8)

/-- Model of `pygPassphrase.py` line 372: alphabetic words of the EFF list (no
deduplication). -/
def pyg_eff_words (eff_list : List (List Char)) : List (List Char) :=
  eff_list.filter pyIsAlpha

/-- Constant `string1 = ascii_letters + digits + punctuation` (line 375). -/
def pyg_string1 : List Char := asciiLetters ++ pyDigits ++ pyPunctuation

/-- Constant `string2 = ascii_letters + digits + SYMBOLS` (line 376). -/
def pyg_string2 : List Char := asciiLetters ++ pyDigits ++ PYG_SYMBOLS

/-- The five result texts of `Generator.make_pass`. -/
structure PygOut where
  phrase_any : List Char
  phrase_lc : List Char
  phrase_select : List Char
  pw_any : List Char
  pw_select : List Char
  deriving DecidableEq, Repr

/-- Model of `Generator.make_pass` (pygPassphrase.py lines 335–454), for the
Linux/mac path with the EFF checkbox off and a system dictionary present
(the pool selection branches at lines 391–398 only swap which drawn strings
are displayed).  `system_list`/`eff_list` are the whitespace-split word
sources (lines 331/333).  There is no count coercion: `none` models the
`ValueError` of `int()` on a non-numeric entry, and the `IndexError` of
`choice` on an empty pool.  The lowercasing of lines 400–401 is
`Char.toLower`. -/
def pyg_make_pass (system_list eff_list : List (List Char))
    (nwE ncE : List Char) (o : Nat → Nat → Nat) : Option PygOut := do
  let uniq_words := pyg_uniq_words system_list
  let trim_words := pyg_trim_words system_list
  let eff_words := pyg_eff_words eff_list
  let nw ← pyIntParse nwE
  let allwords ← sample uniq_words nw.toNat (o 0)
  let somewords ← sample trim_words nw.toNat (o 1)
  let _effwords ← sample eff_words nw.toNat (o 2)
  let addsymbol ← sampleChars PYG_SYMBOLS 1 (o 3)
  let addcaps ← sampleChars asciiUppercase 1 (o 4)
  let addnum ← sampleChars pyDigits 1 (o 5)
  let passphrase1 := (allwords.map Char.toLower) ++ addsymbol ++ addnum ++ addcaps
  let passphrase2 := (somewords.map Char.toLower) ++ addsymbol ++ addnum ++ addcaps
  let nc ← pyIntParse ncE
  let password1 ← sampleChars pyg_string1 nc.toNat (o 6)
  let password2 ← sampleChars pyg_string2 nc.toNat (o 7)
  pure { phrase_any := allwords, phrase_lc := passphrase1,
         phrase_select := passphrase2, pw_any := password1, pw_select := password2 }

/-! ### Concrete inputs used by witness and counterexample theorems -/

/-- A blank display (all result fields zero or empty). -/
def d0 : Display :=
  { available := 0, excluded := [], phrase_raw := [], phrase_plus := [],
    phrase_short := [], pc_any := [], pc_some := [],
    pp_raw_len := 0, pp_plus_len := 0, pp_short_len := 0,
    pc_any_len := 0, pc_some_len := 0,
    pp_raw_h := 0, pp_plus_h := 0, pp_short_h := 0, pc_any_h := 0, pc_some_h := 0 }

/-- A display holding a prior nonzero entropy value. -/
def dPrior : Display := { d0 with pp_raw_h := 5 }

/-- An oracle that always draws index 0. -/
def oW : Nat → Nat → Nat := fun _ _ => 0

/-- An oracle for single-pool draws. -/
def oI : Nat → Nat := fun i => i

def srcW : List Char := "ab cd efg".toList

def src8 : List Char := "12 34".toList

def srcAb : List Char := "ab".toList

def srcAbc : List Char := "abc".toList

def srcHyph : List Char := "ab-cd ab-cd".toList

def eTwo : List Char := "2".toList

def eOne : List Char := "1".toList

def eZero : List Char := "0".toList

def eQ : List Char := "q".toList

def eA : List Char := "a".toList

def eAb : List Char := "ab".toList

def eAbc : List Char := "abc".toList

def eBlank : List Char := []

def fragE : List Char := "e".toList

def fragB : List Char := "b".toList

def fragSpace : List Char := "a b".toList

def poolW : List (List Char) := [['a', 'b'], ['c']]

def sysW : List (List Char) := splitWs "cat dog".toList

def effW : List (List Char) := splitWs "fox hen".toList

/-! ### Helper lemmas: entropy bridging -/

/-- Under exact real arithmetic, the computable entropy value is the floor
of the specified `L·log₂N` formula (for `N = 0` both sides are 0). -/
theorem entropyH_eq_floor (L N : Nat) :
    ((entropyH L N : ℤ)) = ⌊(L : ℝ) * Real.logb 2 (N : ℝ)⌋ := by
  have hcast : ((N : ℝ)) ^ L = (((N ^ L : ℕ)) : ℝ) := by push_cast; ring
  have h2 : (((2 : ℕ)) : ℝ) = (2 : ℝ) := by norm_num
  have h1 : ((Nat.log 2 (N ^ L) : ℤ)) = Int.log 2 (((N ^ L : ℕ)) : ℝ) :=
    (Int.log_natCast 2 (N ^ L)).symm
  have h3 : ⌊Real.logb ((((2 : ℕ))) : ℝ) ((((N ^ L : ℕ))) : ℝ)⌋
      = Int.log 2 (((N ^ L : ℕ)) : ℝ) :=
    Real.floor_logb_natCast (by positivity)
  unfold entropyH
  rw [h1, ← h3, h2, ← hcast, Real.logb_pow]

/-- Under exact real arithmetic, the computable bonus-triplet entropy is the
floor of the sum of the three logarithms. -/
theorem hAdd3_eq_floor (ns nd nu : Nat) (hs : 1 ≤ ns) (hd : 1 ≤ nd) (hu : 1 ≤ nu) :
    ((hAdd3 ns nd nu : ℤ))
      = ⌊Real.logb 2 (ns : ℝ) + Real.logb 2 (nd : ℝ) + Real.logb 2 (nu : ℝ)⌋ := by
  have hns : ((ns : ℝ)) ≠ 0 := Nat.cast_ne_zero.mpr (Nat.one_le_iff_ne_zero.mp hs)
  have hnd : ((nd : ℝ)) ≠ 0 := Nat.cast_ne_zero.mpr (Nat.one_le_iff_ne_zero.mp hd)
  have hnu : ((nu : ℝ)) ≠ 0 := Nat.cast_ne_zero.mpr (Nat.one_le_iff_ne_zero.mp hu)
  have h2 : (((2 : ℕ)) : ℝ) = (2 : ℝ) := by norm_num
  have e1 : Real.logb 2 ((((ns * nd * nu : ℕ))) : ℝ)
      = Real.logb 2 (ns : ℝ) + Real.logb 2 (nd : ℝ) + Real.logb 2 (nu : ℝ) := by
    push_cast
    rw [Real.logb_mul (mul_ne_zero hns hnd) hnu, Real.logb_mul hns hnd]
  have h1 : ((Nat.log 2 (ns * nd * nu) : ℤ)) = Int.log 2 (((ns * nd * nu : ℕ)) : ℝ) :=
    (Int.log_natCast 2 (ns * nd * nu)).symm
  have h3 : ⌊Real.logb ((((2 : ℕ))) : ℝ) ((((ns * nd * nu : ℕ))) : ℝ)⌋
      = Int.log 2 (((ns * nd * nu : ℕ)) : ℝ) :=
    Real.floor_logb_natCast (by positivity)
  unfold hAdd3
  rw [h1, ← h3, h2, e1]

/-! ### Helper lemmas: substring test -/

theorem isPrefixOf_subset : ∀ (f w : List Char), f.isPrefixOf w = true → ∀ c ∈ f, c ∈ w := by
  intro f
  induction f with
  | nil => intro w _ c hc; exact absurd hc (List.not_mem_nil c)
  | cons a as ih =>
    intro w hp c hc
    cases w with
    | nil => simp [List.isPrefixOf] at hp
    | cons b bs =>
      simp only [List.isPrefixOf, Bool.and_eq_true, beq_iff_eq] at hp
      rcases List.mem_cons.mp hc with rfl | h
      · rw [hp.1]; exact List.mem_cons_self b bs
      · exact List.mem_cons_of_mem b (ih bs hp.2 c h)

/-- Characters of a substring occurrence are characters of the string. -/
theorem hasSub_subset : ∀ (w f : List Char), hasSub f w = true → ∀ c ∈ f, c ∈ w := by
  intro w
  induction w with
  | nil =>
    intro f h c hc
    simp only [hasSub, List.isEmpty_iff] at h
    subst h
    exact absurd hc (List.not_mem_nil c)
  | cons b bs ih =>
    intro f h c hc
    simp only [hasSub, Bool.or_eq_true] at h
    rcases h with h | h
    · exact isPrefixOf_subset f (b :: bs) h c hc
    · exact List.mem_cons_of_mem b (ih f h c hc)

/-- A fragment containing a space is not a substring of a space-free string. -/
theorem hasSub_eq_false {f w : List Char} (hf : ' ' ∈ f) (hw : ' ' ∉ w) :
    hasSub f w = false := by
  cases hx : hasSub f w with
  | false => rfl
  | true => exact absurd (hasSub_subset w f hx ' ' hf) hw

/-! ### Helper lemmas: sampling -/

theorem drawFrom_some_of_ne_nil {α : Type} (pool : List α) (o : Nat → Nat)
    (hne : pool ≠ []) :
    ∀ (cnt start : Nat), ∃ us, drawFrom pool o start cnt = some us ∧
      us.length = cnt ∧ ∀ u ∈ us, u ∈ pool := by
  intro cnt
  induction cnt with
  | zero => intro start; exact ⟨[], rfl, rfl, by simp⟩
  | succ n ih =>
    intro start
    have hlen : 0 < pool.length := List.length_pos.mpr hne
    have hmod : (o start) % pool.length < pool.length := Nat.mod_lt _ hlen
    have hchoice : pyChoice pool (o start)
        = some (pool.get ⟨(o start) % pool.length, hmod⟩) := by
      unfold pyChoice
      exact List.getElem?_eq_getElem hmod
    obtain ⟨us, h1, h2, h3⟩ := ih (start + 1)
    refine ⟨pool.get ⟨(o start) % pool.length, hmod⟩ :: us, ?_, by simp [h2], ?_⟩
    · simp only [drawFrom, hchoice, h1, Option.bind_some, Option.bind_eq_bind]
      rfl
    · intro u hu
      rcases List.mem_cons.mp hu with rfl | h
      · exact List.get_mem pool _ _
      · exact h3 u h

theorem drawFrom_nil_none {α : Type} (o : Nat → Nat) (start n : Nat) :
    drawFrom ([] : List α) o start (n + 1) = none := by
  simp [drawFrom, pyChoice]

theorem one_le_length_of_not_isEmpty {α : Type} {l : List α} (h : ¬ l.isEmpty = true) :
    1 ≤ l.length := by
  cases l with
  | nil => simp at h
  | cons a t => simp

/-- Success of `set_entropy` implies every pool was nonempty and each of the
five entropy fields carries the formula value for its own pool. -/
theorem set_entropy_ok {st : PoolState} {d d' : Display} {nw nc : Nat}
    (h : set_entropy st d nw nc = (d', true)) :
    (1 ≤ st.word_list.length ∧ 1 ≤ st.short_list.length ∧ 1 ≤ st.symbols.length ∧
     1 ≤ st.digi.length ∧ 1 ≤ st.caps.length ∧ 1 ≤ st.all_char.length ∧
     1 ≤ st.some_char.length) ∧
    d'.pp_raw_h = entropyH nw st.word_list.length ∧
    d'.pp_plus_h = d'.pp_raw_h + hAdd3 st.symbols.length st.digi.length st.caps.length ∧
    d'.pp_short_h = entropyH nw st.short_list.length
      + hAdd3 st.symbols.length st.digi.length st.caps.length ∧
    d'.pc_any_h = entropyH nc st.all_char.length ∧
    d'.pc_some_h = entropyH nc st.some_char.length := by
  simp only [set_entropy] at h
  split at h
  · simp at h
  next hg1 =>
    split at h
    · simp at h
    next hg2 =>
      split at h
      · simp at h
      next hg3 =>
        split at h
        · simp at h
        next hg4 =>
          split at h
          · simp at h
          next hg5 =>
            rw [Prod.mk.injEq] at h
            obtain ⟨hd, -⟩ := h
            subst hd
            simp only [Bool.or_eq_true, not_or] at hg1
            refine ⟨⟨?_, ?_, ?_, ?_, ?_, ?_, ?_⟩, by simp, by simp, by simp, by simp, by simp⟩
            · exact one_le_length_of_not_isEmpty hg2
            · exact one_le_length_of_not_isEmpty hg3
            · exact one_le_length_of_not_isEmpty hg1.1.1
            · exact one_le_length_of_not_isEmpty hg1.1.2
            · exact one_le_length_of_not_isEmpty hg1.2
            · exact one_le_length_of_not_isEmpty hg4
            · exact one_le_length_of_not_isEmpty hg5

/-! ### Helper lemmas: reset and exclusion -/

theorem reset_fst (src : List Char) (st : PoolState) (d : Display) :
    (reset src st d).1 = init_pools src := rfl

theorem reset_snd_excluded (src : List Char) (st : PoolState) (d : Display) :
    (reset src st d).2.excluded = [] := rfl

/-- Word-pool units of the unfiltered baseline are alphabetic. -/
theorem init_word_alpha (src : List Char) :
    ∀ w ∈ (init_pools src).word_list, pyIsAlpha w = true := by
  intro w hw
  exact (List.mem_filter.mp hw).2

theorem init_short_alpha (src : List Char) :
    ∀ w ∈ (init_pools src).short_list, pyIsAlpha w = true := by
  intro w hw
  exact init_word_alpha src w (List.mem_filter.mp hw).1

theorem no_space_of_alpha {w : List Char} (h : pyIsAlpha w = true) : ' ' ∉ w := by
  intro hs
  simp only [pyIsAlpha, Bool.and_eq_true, List.all_eq_true] at h
  have := h.2 ' ' hs
  simp [Char.isAlpha, Char.isLower, Char.isUpper] at this

/-- Filtering a pool of alphabetic words by a space-containing fragment
removes nothing. -/
theorem filter_word_id {l : List (List Char)} (hl : ∀ w ∈ l, pyIsAlpha w = true)
    {u : List Char} (hu : ' ' ∈ u) :
    l.filter (fun w => !hasSub u w) = l := by
  rw [List.filter_eq_self]
  intro w hw
  rw [hasSub_eq_false hu (no_space_of_alpha (hl w hw))]
  rfl

/-- Filtering a space-free character pool by a space-containing fragment
removes nothing. -/
theorem filter_char_id {l : List Char} (hl : ' ' ∉ l) {u : List Char} (hu : ' ' ∈ u) :
    l.filter (fun c => !hasSub u [c]) = l := by
  rw [List.filter_eq_self]
  intro c hc
  have hcs : ' ' ∉ [c] := by
    simp only [List.mem_singleton]
    intro he
    rw [he] at hl
    exact hl hc
  rw [hasSub_eq_false hu hcs]
  rfl

theorem space_not_mem_symbols : ' ' ∉ SYMBOLS := by decide

theorem space_not_mem_digits : ' ' ∉ pyDigits := by decide

theorem space_not_mem_caps : ' ' ∉ asciiUppercase := by decide

theorem space_not_mem_all_char : ' ' ∉ all_char_base := by decide

theorem space_not_mem_some_char : ' ' ∉ some_char_base := by decide

/-- With a nonempty, space-free fragment no reset occurs and every pool is
the substring filter of the incoming pool. -/
theorem applyExclusion_pools (src : List Char) (st : PoolState) (d : Display)
    {u : List Char} (hne : u ≠ []) (hsp : u.contains ' ' = false) :
    (applyExclusion src st d u).1.word_list
      = st.word_list.filter (fun w => !hasSub u w) ∧
    (applyExclusion src st d u).1.short_list
      = st.short_list.filter (fun w => !hasSub u w) ∧
    (applyExclusion src st d u).1.symbols
      = st.symbols.filter (fun c => !hasSub u [c]) ∧
    (applyExclusion src st d u).1.digi
      = st.digi.filter (fun c => !hasSub u [c]) ∧
    (applyExclusion src st d u).1.caps
      = st.caps.filter (fun c => !hasSub u [c]) ∧
    (applyExclusion src st d u).1.all_char
      = st.all_char.filter (fun c => !hasSub u [c]) ∧
    (applyExclusion src st d u).1.some_char
      = st.some_char.filter (fun c => !hasSub u [c]) := by
  have hmem : ' ' ∉ u := by simpa using hsp
  have hc : (u.contains ' ' || u.isEmpty) = false := by
    simp [List.isEmpty_iff, hne, hmem]
  have hlen : 0 < u.length := List.length_pos.mpr hne
  simp only [applyExclusion, hc, Bool.false_eq_true, if_false, hlen, if_true]
  split <;> simp

/-- With a nonempty, space-free fragment the exclusion step changes only the
available-count and excluded-characters display values; all fifteen result
fields keep their previous values. -/
theorem applyExclusion_noreset_disp (src : List Char) (st : PoolState) (d : Display)
    {u : List Char} (hne : u ≠ []) (hsp : u.contains ' ' = false) :
    (applyExclusion src st d u).2.phrase_raw = d.phrase_raw ∧
    (applyExclusion src st d u).2.phrase_plus = d.phrase_plus ∧
    (applyExclusion src st d u).2.phrase_short = d.phrase_short ∧
    (applyExclusion src st d u).2.pc_any = d.pc_any ∧
    (applyExclusion src st d u).2.pc_some = d.pc_some ∧
    (applyExclusion src st d u).2.pp_raw_len = d.pp_raw_len ∧
    (applyExclusion src st d u).2.pp_plus_len = d.pp_plus_len ∧
    (applyExclusion src st d u).2.pp_short_len = d.pp_short_len ∧
    (applyExclusion src st d u).2.pc_any_len = d.pc_any_len ∧
    (applyExclusion src st d u).2.pc_some_len = d.pc_some_len ∧
    (applyExclusion src st d u).2.pp_raw_h = d.pp_raw_h ∧
    (applyExclusion src st d u).2.pp_plus_h = d.pp_plus_h ∧
    (applyExclusion src st d u).2.pp_short_h = d.pp_short_h ∧
    (applyExclusion src st d u).2.pc_any_h = d.pc_any_h ∧
    (applyExclusion src st d u).2.pc_some_h = d.pc_some_h := by
  have hmem : ' ' ∉ u := by simpa using hsp
  have hc : (u.contains ' ' || u.isEmpty) = false := by
    simp [List.isEmpty_iff, hne, hmem]
  have hlen : 0 < u.length := List.length_pos.mpr hne
  simp only [applyExclusion, hc, Bool.false_eq_true, if_false, hlen, if_true]
  split <;> simp

/-- Filtering the baseline pools by a space-containing fragment removes
nothing. -/
theorem init_filters_id (src : List Char) {u : List Char} (hu : ' ' ∈ u) :
    (init_pools src).word_list.filter (fun w => !hasSub u w)
        = (init_pools src).word_list ∧
    (init_pools src).short_list.filter (fun w => !hasSub u w)
        = (init_pools src).short_list ∧
    (init_pools src).symbols.filter (fun c => !hasSub u [c])
        = (init_pools src).symbols ∧
    (init_pools src).digi.filter (fun c => !hasSub u [c])
        = (init_pools src).digi ∧
    (init_pools src).caps.filter (fun c => !hasSub u [c])
        = (init_pools src).caps ∧
    (init_pools src).all_char.filter (fun c => !hasSub u [c])
        = (init_pools src).all_char ∧
    (init_pools src).some_char.filter (fun c => !hasSub u [c])
        = (init_pools src).some_char :=
  ⟨filter_word_id (init_word_alpha src) hu,
   filter_word_id (init_short_alpha src) hu,
   filter_char_id space_not_mem_symbols hu,
   filter_char_id space_not_mem_digits hu,
   filter_char_id space_not_mem_caps hu,
   filter_char_id space_not_mem_all_char hu,
   filter_char_id space_not_mem_some_char hu⟩

/-- C6: applying an exclusion fragment that is empty or contains a space
resets every pool (word list, short list, symbols, digits, uppercase,
all_char, some_char) to its unfiltered baseline recomputed from the word
source, and sets the currently-excluded observable to the empty string. -/
theorem C6_reset_on_blank_or_space (src : List Char) (st : PoolState) (d : Display)
    (unused : List Char) (h : unused = [] ∨ unused.contains ' ' = true) :
    (applyExclusion src st d unused).1 = init_pools src ∧
    (applyExclusion src st d unused).2.excluded = [] := by
  rcases h with rfl | hsp
  · exact ⟨reset_fst src st d, reset_snd_excluded src st d⟩
  · have hmem : ' ' ∈ unused := by simpa using hsp
    have hne : unused ≠ [] := by rintro rfl; simp at hmem
    have hc : (unused.contains ' ' || unused.isEmpty) = true := by simp [hmem]
    have hlen : 0 < unused.length := List.length_pos.mpr hne
    have hns : (!hasSub unused (init_pools src).all_unused && !unused.contains ' ')
        = false := by simp [hmem]
    obtain ⟨e1, e2, e3, e4, e5, e6, e7⟩ := init_filters_id src hmem
    simp only [applyExclusion, hc, if_true, hlen, reset_fst, reset_snd_excluded,
      if_pos, hns, Bool.false_eq_true, if_false]
    refine ⟨?_, trivial⟩
    rw [e1, e2, e3, e4, e5, e6, e7]

/-- Witness for C6 at the concrete fragment `"a b"`. -/
theorem C6_witness :
    (fragSpace = [] ∨ fragSpace.contains ' ' = true) ∧
    ((applyExclusion srcW (init_pools srcW) dPrior fragSpace).1 = init_pools srcW ∧
     (applyExclusion srcW (init_pools srcW) dPrior fragSpace).2.excluded = []) :=
  ⟨Or.inr (by decide),
   C6_reset_on_blank_or_space srcW (init_pools srcW) dPrior fragSpace (Or.inr (by decide))⟩

/-- C2: two successive exclusions with nonempty space-free fragments narrow
every pool exactly to the baseline pool minus all units containing the
first fragment minus all units containing the second fragment. -/
theorem C2_exclusion_composition (src : List Char) (st : PoolState) (d : Display)
    (f1 f2 : List Char) (h1 : f1 ≠ []) (h1s : f1.contains ' ' = false)
    (h2 : f2 ≠ []) (h2s : f2.contains ' ' = false) :
    ((applyExclusion src (applyExclusion src st d f1).1
        (applyExclusion src st d f1).2 f2).1).word_list
      = st.word_list.filter (fun w => !hasSub f1 w && !hasSub f2 w) ∧
    ((applyExclusion src (applyExclusion src st d f1).1
        (applyExclusion src st d f1).2 f2).1).short_list
      = st.short_list.filter (fun w => !hasSub f1 w && !hasSub f2 w) ∧
    ((applyExclusion src (applyExclusion src st d f1).1
        (applyExclusion src st d f1).2 f2).1).symbols
      = st.symbols.filter (fun c => !hasSub f1 [c] && !hasSub f2 [c]) ∧
    ((applyExclusion src (applyExclusion src st d f1).1
        (applyExclusion src st d f1).2 f2).1).digi
      = st.digi.filter (fun c => !hasSub f1 [c] && !hasSub f2 [c]) ∧
    ((applyExclusion src (applyExclusion src st d f1).1
        (applyExclusion src st d f1).2 f2).1).caps
      = st.caps.filter (fun c => !hasSub f1 [c] && !hasSub f2 [c]) ∧
    ((applyExclusion src (applyExclusion src st d f1).1
        (applyExclusion src st d f1).2 f2).1).all_char
      = st.all_char.filter (fun c => !hasSub f1 [c] && !hasSub f2 [c]) ∧
    ((applyExclusion src (applyExclusion src st d f1).1
        (applyExclusion src st d f1).2 f2).1).some_char
      = st.some_char.filter (fun c => !hasSub f1 [c] && !hasSub f2 [c]) := by
  obtain ⟨a1, a2, a3, a4, a5, a6, a7⟩ := applyExclusion_pools src st d h1 h1s
  obtain ⟨b1, b2, b3, b4, b5, b6, b7⟩ := applyExclusion_pools src
    (applyExclusion src st d f1).1 (applyExclusion src st d f1).2 h2 h2s
  refine ⟨?_, ?_, ?_, ?_, ?_, ?_, ?_⟩
  · rw [b1, a1, List.filter_filter]
    exact List.filter_congr (fun w _ => by rw [Bool.and_comm])
  · rw [b2, a2, List.filter_filter]
    exact List.filter_congr (fun w _ => by rw [Bool.and_comm])
  · rw [b3, a3, List.filter_filter]
    exact List.filter_congr (fun c _ => by rw [Bool.and_comm])
  · rw [b4, a4, List.filter_filter]
    exact List.filter_congr (fun c _ => by rw [Bool.and_comm])
  · rw [b5, a5, List.filter_filter]
    exact List.filter_congr (fun c _ => by rw [Bool.and_comm])
  · rw [b6, a6, List.filter_filter]
    exact List.filter_congr (fun c _ => by rw [Bool.and_comm])
  · rw [b7, a7, List.filter_filter]
    exact List.filter_congr (fun c _ => by rw [Bool.and_comm])

/-- Witness for C2 at the concrete fragments `"e"` then `"b"`. -/
theorem C2_witness :
    (fragE ≠ [] ∧ fragE.contains ' ' = false ∧ fragB ≠ [] ∧
      fragB.contains ' ' = false) ∧
    ((applyExclusion srcW (applyExclusion srcW (init_pools srcW) d0 fragE).1
        (applyExclusion srcW (init_pools srcW) d0 fragE).2 fragB).1).word_list
      = (init_pools srcW).word_list.filter (fun w => !hasSub fragE w && !hasSub fragB w) :=
  ⟨⟨by decide, by decide, by decide, by decide⟩,
   (C2_exclusion_composition srcW (init_pools srcW) d0 fragE fragB
     (by decide) (by decide) (by decide) (by decide)).1⟩

/-- C4: sampling returns the empty-pool failure exactly when the pool is
empty and the requested count is positive; a zero count never fails. -/
theorem C4_sample_empty_iff (pool : List (List Char)) (cnt : Nat) (o : Nat → Nat) :
    sample pool cnt o = none ↔ (pool = [] ∧ 0 < cnt) := by
  constructor
  · intro h
    by_cases hp : pool = []
    · subst hp
      cases cnt with
      | zero => simp [sample, drawFrom] at h
      | succ n => exact ⟨rfl, Nat.succ_pos n⟩
    · obtain ⟨us, hu, -, -⟩ := drawFrom_some_of_ne_nil pool o hp cnt 0
      rw [sample, hu] at h
      simp at h
  · rintro ⟨rfl, hc⟩
    cases cnt with
    | zero => exact absurd hc (lt_irrefl 0)
    | succ n => simp [sample, drawFrom_nil_none]

/-- C7: from a nonempty pool, sampling `cnt` units returns the concatenation
of exactly `cnt` units, each a member of the pool; a zero count yields the
empty string. -/
theorem C7_sample_units (pool : List (List Char)) (cnt : Nat) (o : Nat → Nat) :
    (pool ≠ [] →
      ∃ us : List (List Char), sample pool cnt o = some us.flatten ∧
        us.length = cnt ∧ ∀ u ∈ us, u ∈ pool) ∧
    sample pool 0 o = some [] := by
  constructor
  · intro h
    obtain ⟨us, h1, h2, h3⟩ := drawFrom_some_of_ne_nil pool o h cnt 0
    exact ⟨us, by simp [sample, h1], h2, h3⟩
  · rfl

/-- Witness for C7 at the concrete pool `[['a','b'], ['c']]` and count 2. -/
theorem C7_witness :
    poolW ≠ [] ∧
    (∃ us : List (List Char), sample poolW 2 oI = some us.flatten ∧ us.length = 2 ∧
      (∀ u ∈ us, u ∈ poolW)) ∧
    sample poolW 0 oI = some [] :=
  ⟨by decide, (C7_sample_units poolW 2 oI).1 (by decide), (C7_sample_units poolW 0 oI).2⟩

/-- With any empty pool, `set_entropy` fails (an empty pool makes one of its
logarithm or division computations raise). -/
theorem set_entropy_snd_false {st : PoolState} (h : anyPoolEmpty st = true)
    (d : Display) (nw nc : Nat) : (set_entropy st d nw nc).2 = false := by
  simp only [set_entropy]
  split
  · rfl
  next hg1 =>
    split
    · rfl
    next hg2 =>
      split
      · rfl
      next hg3 =>
        split
        · rfl
        next hg4 =>
          split
          · rfl
          next hg5 =>
            exfalso
            simp only [anyPoolEmpty, Bool.or_eq_true] at h
            simp only [Bool.or_eq_true, not_or] at hg1
            tauto

/-- C10: a generation call fails whenever any post-exclusion pool is empty,
including pools whose requested sample count is zero (the bonus draws and
the entropy computation touch every pool on every call). -/
theorem C10_generate_fails_on_empty_pool (src : List Char) (st : PoolState)
    (d : Display) (nwE ncE exE : List Char) (o : Nat → Nat → Nat)
    (h : anyPoolEmpty (applyExclusion src st d (pyStrip exE)).1 = true) :
    (make_pass src st d nwE ncE exE o).isErr = true := by
  simp only [make_pass]
  split
  · rfl
  next dr hb =>
    rw [set_entropy_snd_false h]
    rfl

/-- Witness for C10: excluding `"a"` from the word source `"abc"` empties the
word pool, and generation fails even with both requested counts zero. -/
theorem C10_witness :
    anyPoolEmpty (applyExclusion srcAbc (init_pools srcAbc) d0 (pyStrip eA)).1 = true ∧
    (make_pass srcAbc (init_pools srcAbc) d0 eZero eZero eA oW).isErr = true :=
  ⟨by decide,
   C10_generate_fails_on_empty_pool srcAbc (init_pools srcAbc) d0 eZero eZero eA oW
     (by decide)⟩

/-- C8 counterexample: with the exclusion entry blank, `make_pass` first
resets (wiping the displayed values) and only then samples; on a word
source with no alphabetic token the sampling step fails, yet the previously
displayed entropy value has already been overwritten.  This refutes the
claim that a failed generation always leaves prior displayed values
unchanged. -/
theorem C8_counterexample :
    buildStrings (applyExclusion src8 (init_pools src8) dPrior (pyStrip eBlank)).1
      (parseCount eOne) (parseCount eZero) oW = none ∧
    (make_pass src8 (init_pools src8) dPrior eOne eZero eBlank oW).isErr = true ∧
    (make_pass src8 (init_pools src8) dPrior eOne eZero eBlank oW).dispOf.pp_raw_h
      ≠ dPrior.pp_raw_h := by
  refine ⟨by decide, by decide, by decide⟩

/-- C8 (amended): provided the exclusion fragment is nonempty and space-free
(so that no reset occurs), a generation whose sampling step fails leaves
every previously displayed value of the five result triples unchanged. -/
theorem C8_failed_generation_amended (src : List Char) (st : PoolState) (d : Display)
    (nwE ncE exE : List Char) (o : Nat → Nat → Nat)
    (hne : pyStrip exE ≠ []) (hsp : (pyStrip exE).contains ' ' = false)
    (hfail : buildStrings (applyExclusion src st d (pyStrip exE)).1
      (parseCount nwE) (parseCount ncE) o = none) :
    (make_pass src st d nwE ncE exE o).isErr = true ∧
    (make_pass src st d nwE ncE exE o).dispOf.phrase_raw = d.phrase_raw ∧
    (make_pass src st d nwE ncE exE o).dispOf.phrase_plus = d.phrase_plus ∧
    (make_pass src st d nwE ncE exE o).dispOf.phrase_short = d.phrase_short ∧
    (make_pass src st d nwE ncE exE o).dispOf.pc_any = d.pc_any ∧
    (make_pass src st d nwE ncE exE o).dispOf.pc_some = d.pc_some ∧
    (make_pass src st d nwE ncE exE o).dispOf.pp_raw_len = d.pp_raw_len ∧
    (make_pass src st d nwE ncE exE o).dispOf.pp_plus_len = d.pp_plus_len ∧
    (make_pass src st d nwE ncE exE o).dispOf.pp_short_len = d.pp_short_len ∧
    (make_pass src st d nwE ncE exE o).dispOf.pc_any_len = d.pc_any_len ∧
    (make_pass src st d nwE ncE exE o).dispOf.pc_some_len = d.pc_some_len ∧
    (make_pass src st d nwE ncE exE o).dispOf.pp_raw_h = d.pp_raw_h ∧
    (make_pass src st d nwE ncE exE o).dispOf.pp_plus_h = d.pp_plus_h ∧
    (make_pass src st d nwE ncE exE o).dispOf.pp_short_h = d.pp_short_h ∧
    (make_pass src st d nwE ncE exE o).dispOf.pc_any_h = d.pc_any_h ∧
    (make_pass src st d nwE ncE exE o).dispOf.pc_some_h = d.pc_some_h := by
  obtain ⟨p1, p2, p3, p4, p5, p6, p7, p8, p9, p10, p11, p12, p13, p14, p15⟩ :=
    applyExclusion_noreset_disp src st d hne hsp
  simp only [make_pass, hfail, MPResult.isErr, MPResult.dispOf]
  exact ⟨by trivial, p1, p2, p3, p4, p5, p6, p7, p8, p9, p10, p11, p12, p13, p14, p15⟩

/-- Witness for the amended C8: excluding `"ab"` empties the word pool built
from source `"ab"`; the sampling of one word fails and the display keeps its
prior entropy value. -/
theorem C8_witness :
    (pyStrip eAb ≠ [] ∧ (pyStrip eAb).contains ' ' = false ∧
     buildStrings (applyExclusion srcAb (init_pools srcAb) dPrior (pyStrip eAb)).1
       (parseCount eOne) (parseCount eZero) oW = none) ∧
    (make_pass srcAb (init_pools srcAb) dPrior eOne eZero eAb oW).isErr = true ∧
    (make_pass srcAb (init_pools srcAb) dPrior eOne eZero eAb oW).dispOf.pp_raw_h
      = dPrior.pp_raw_h :=
  ⟨⟨by decide, by decide, by decide⟩,
   (C8_failed_generation_amended srcAb (init_pools srcAb) dPrior eOne eZero eAb oW
      (by decide) (by decide) (by decide)).1,
   (C8_failed_generation_amended srcAb (init_pools srcAb) dPrior eOne eZero eAb oW
      (by decide) (by decide) (by decide)).2.2.2.2.2.2.2.2.2.2.2.1⟩

/-- C1: on every successful generation, each of the five reported
entropy-bit values is the floor formula over the size of its own
post-exclusion pool: the raw phrase and the two passcodes use
`⌊L·log₂N⌋`, and the two phrase-plus outputs add the bonus-triplet floor
`⌊log₂Ns + log₂Nd + log₂Nu⌋` over the current symbol, digit and uppercase
pool sizes. -/
theorem C1_entropy_formula (src : List Char) (st : PoolState) (d : Display)
    (nwE ncE exE : List Char) (o : Nat → Nat → Nat) (st' : PoolState) (d' : Display)
    (h : make_pass src st d nwE ncE exE o = MPResult.ok st' d') :
    ((d'.pp_raw_h : ℤ)
      = ⌊(parseCount nwE : ℝ) * Real.logb 2 (st'.word_list.length : ℝ)⌋) ∧
    ((d'.pp_plus_h : ℤ) = (d'.pp_raw_h : ℤ)
      + ⌊Real.logb 2 (st'.symbols.length : ℝ) + Real.logb 2 (st'.digi.length : ℝ)
          + Real.logb 2 (st'.caps.length : ℝ)⌋) ∧
    ((d'.pp_short_h : ℤ)
      = ⌊(parseCount nwE : ℝ) * Real.logb 2 (st'.short_list.length : ℝ)⌋
      + ⌊Real.logb 2 (st'.symbols.length : ℝ) + Real.logb 2 (st'.digi.length : ℝ)
          + Real.logb 2 (st'.caps.length : ℝ)⌋) ∧
    ((d'.pc_any_h : ℤ)
      = ⌊(parseCount ncE : ℝ) * Real.logb 2 (st'.all_char.length : ℝ)⌋) ∧
    ((d'.pc_some_h : ℤ)
      = ⌊(parseCount ncE : ℝ) * Real.logb 2 (st'.some_char.length : ℝ)⌋) := by
  simp only [make_pass] at h
  split at h
  · exact absurd h (by simp)
  next dr hb =>
    split at h
    next hse =>
      injection h with hst hd
      have heq0 := (Prod.mk.eta
        (p := set_entropy (applyExclusion src st d (pyStrip exE)).1
          { (applyExclusion src st d (pyStrip exE)).2 with
            phrase_raw := dr.passphrase, pp_raw_len := dr.passphrase.length,
            phrase_plus := dr.passphrase ++ dr.addsymbol ++ dr.addnum ++ dr.addcaps,
            pp_plus_len := (dr.passphrase ++ dr.addsymbol ++ dr.addnum ++ dr.addcaps).length,
            phrase_short := dr.shortphrase ++ dr.addsymbol ++ dr.addnum ++ dr.addcaps,
            pp_short_len := (dr.shortphrase ++ dr.addsymbol ++ dr.addnum ++ dr.addcaps).length,
            pc_any := dr.passcode1, pc_any_len := dr.passcode1.length,
            pc_some := dr.passcode2, pc_some_len := dr.passcode2.length }
          (parseCount nwE) (parseCount ncE))).symm
      rw [hse, hd] at heq0
      obtain ⟨⟨n1, n2, n3, n4, n5, n6, n7⟩, q1, q2, q3, q4, q5⟩ := set_entropy_ok heq0
      rw [← hst]
      refine ⟨?_, ?_, ?_, ?_, ?_⟩
      · rw [q1, entropyH_eq_floor]
      · rw [q2]
        push_cast
        rw [hAdd3_eq_floor _ _ _ n3 n4 n5]
      · rw [q3]
        push_cast
        rw [entropyH_eq_floor, hAdd3_eq_floor _ _ _ n3 n4 n5]
      · rw [q4, entropyH_eq_floor]
      · rw [q5, entropyH_eq_floor]
    next hse => exact absurd h (by simp)

/-- Witness for C1 at a concrete three-word source, two words, one
character, and exclusion fragment `"q"`. -/
theorem C1_witness :
    make_pass srcW (init_pools srcW) d0 eTwo eOne eQ oW
      = MPResult.ok (make_pass srcW (init_pools srcW) d0 eTwo eOne eQ oW).stateOf
          (make_pass srcW (init_pools srcW) d0 eTwo eOne eQ oW).dispOf ∧
    (((make_pass srcW (init_pools srcW) d0 eTwo eOne eQ oW).dispOf.pp_raw_h : ℤ)
      = ⌊(parseCount eTwo : ℝ) * Real.logb 2
          ((make_pass srcW (init_pools srcW) d0 eTwo eOne eQ oW).stateOf.word_list.length : ℝ)⌋) ∧
    (((make_pass srcW (init_pools srcW) d0 eTwo eOne eQ oW).dispOf.pc_any_h : ℤ)
      = ⌊(parseCount eOne : ℝ) * Real.logb 2
          ((make_pass srcW (init_pools srcW) d0 eTwo eOne eQ oW).stateOf.all_char.length : ℝ)⌋) :=
  ⟨rfl,
   (C1_entropy_formula srcW (init_pools srcW) d0 eTwo eOne eQ oW
      (make_pass srcW (init_pools srcW) d0 eTwo eOne eQ oW).stateOf
      (make_pass srcW (init_pools srcW) d0 eTwo eOne eQ oW).dispOf rfl).1,
   (C1_entropy_formula srcW (init_pools srcW) d0 eTwo eOne eQ oW
      (make_pass srcW (init_pools srcW) d0 eTwo eOne eQ oW).stateOf
      (make_pass srcW (init_pools srcW) d0 eTwo eOne eQ oW).dispOf rfl).2.2.2.1⟩

/-- C3 counterexample: the claim that every variant draws from a
cryptographically strong generator fails, because `passphrase.py`
instantiates `VERY_RANDOM` as `random.Random` (the deterministic Mersenne
Twister), not `random.SystemRandom`. -/
theorem C3_counterexample :
    ¬ (isCSPRNG VERY_RANDOM = true ∧ isCSPRNG pyg_secure_random = true) := by
  decide

/-- C3 (amended): only `pygPassphrase.py` draws from a CSPRNG
(`random.SystemRandom`); `passphrase.py` draws from the deterministic
Mersenne Twister `random.Random`, which is not cryptographically strong. -/
theorem C3_rng_amended :
    isCSPRNG pyg_secure_random = true ∧ VERY_RANDOM = PyRng.mersenneTwister ∧
    isCSPRNG VERY_RANDOM = false := by
  decide

/-- C5 counterexample: in `pygPassphrase.py` a non-digit count entry is not
coerced to 0; `int()` raises `ValueError` and the generation call fails. -/
theorem C5_counterexample :
    pyIntParse eAbc = none ∧ pyg_make_pass sysW effW eAbc eZero oW = none :=
  ⟨by decide, by decide⟩

/-- C5 (amended): in `passphrase.py` an empty or non-digit count entry is
coerced to 0 and generation proceeds; in `pygPassphrase.py` there is no
coercion — a count entry on which `int()` fails makes `make_pass` fail. -/
theorem C5_coercion_amended :
    (∀ s : List Char, pyAllDigits (pyStrip s) = false → parseCount s = 0) ∧
    (∀ (src : List Char) (st : PoolState) (d : Display) (s ncE exE : List Char)
        (o : Nat → Nat → Nat), pyAllDigits (pyStrip s) = false →
      make_pass src st d s ncE exE o = make_pass src st d eZero ncE exE o) ∧
    (∀ (system_list eff_list : List (List Char)) (nwE ncE : List Char)
        (o : Nat → Nat → Nat), pyIntParse nwE = none →
      pyg_make_pass system_list eff_list nwE ncE o = none) := by
  refine ⟨?_, ?_, ?_⟩
  · intro s hs
    simp [parseCount, hs]
  · intro src st d s ncE exE o hs
    have h0 : parseCount s = 0 := by simp [parseCount, hs]
    simp only [make_pass, h0]
    rfl
  · intro sys eff nwE ncE o h
    simp [pyg_make_pass, h]

/-- Witness for the amended C5 at the concrete entry `"abc"`. -/
theorem C5_witness :
    (pyAllDigits (pyStrip eAbc) = false ∧ parseCount eAbc = 0) ∧
    make_pass srcW (init_pools srcW) d0 eAbc eZero eQ oW
      = make_pass srcW (init_pools srcW) d0 eZero eZero eQ oW ∧
    (pyIntParse eAbc = none ∧ pyg_make_pass sysW effW eAbc eZero oW = none) :=
  ⟨⟨by decide, C5_coercion_amended.1 eAbc (by decide)⟩,
   C5_coercion_amended.2.1 srcW (init_pools srcW) d0 eAbc eZero eQ oW (by decide),
   ⟨by decide, C5_coercion_amended.2.2 sysW effW eAbc eZero oW (by decide)⟩⟩

/-- C9 counterexample: the system-dictionary pool of `pygPassphrase.py` is
neither set-deduplicated nor restricted to alphabetic units: on the source
`"ab-cd ab-cd"` it keeps both copies of the hyphenated token, while the
claimed construction yields the empty pool. -/
theorem C9_counterexample :
    pyg_uniq_words (splitWs srcHyph) ≠ ((splitWs srcHyph).dedup).filter pyIsAlpha := by
  decide

/-- C9 (amended): in `passphrase.py` the word pool is exactly the
set-deduplicated whitespace tokens restricted to alphabetic units, with the
short pool its length-below-7 subset; in `pygPassphrase.py` no
deduplication occurs — the EFF pool is the alphabetic-token sublist (with
multiplicity), the system-dictionary pool keeps every token not containing
the apostrophe-s pattern (hyphenated and punctuated tokens included), and
the short pool filters that to lengths 3 through 8. -/
theorem C9_wordpool_amended :
    (∀ (src : List Char) (st : PoolState) (d : Display),
      (get_words src st d).1.word_list = (init_pools src).word_list ∧
      (get_words src st d).1.short_list = (init_pools src).short_list) ∧
    (∀ (src : List Char) (w : List Char),
      w ∈ (init_pools src).word_list ↔ (w ∈ splitWs src ∧ pyIsAlpha w = true)) ∧
    (∀ src : List Char, (init_pools src).word_list.Nodup) ∧
    (∀ src : List Char, (init_pools src).short_list
      = (init_pools src).word_list.filter (fun w => w.length < 7)) ∧
    (∀ (sys : List (List Char)) (w : List Char),
      w ∈ pyg_uniq_words sys ↔ (w ∈ sys ∧ hasSub apoS w = false)) ∧
    (∀ sys : List (List Char), pyg_trim_words sys
      = (pyg_uniq_words sys).filter (fun w => 3 ≤ w.length && w.length ≤ 8)) ∧
    (∀ (eff : List (List Char)) (w : List Char),
      w ∈ pyg_eff_words eff ↔ (w ∈ eff ∧ pyIsAlpha w = true)) := by
  refine ⟨?_, ?_, ?_, ?_, ?_, ?_, ?_⟩
  · intro src st d
    exact ⟨rfl, rfl⟩
  · intro src w
    simp [init_pools, List.mem_filter, List.mem_dedup]
  · intro src
    exact (List.nodup_dedup _).filter _
  · intro src
    rfl
  · intro sys w
    simp [pyg_uniq_words, List.mem_filter]
  · intro sys
    rfl
  · intro eff w
    simp [pyg_eff_words, List.mem_filter]

end Passgen
